import Mathlib

/-!
Shallow embedding of the cloudbiolinux install orchestration code
(`fabfile.py`, `cloudbio/chef_utils.py`, `cloudbio/deploy/cloudman.py`)
together with theorems checking the natural-language specification
against it.  Python dicts are modelled as association lists with a
membership-respecting insert, remote side effects as explicit event
traces, and fallible code as `Except`.
-/

namespace CloudBioLinux

/-! ### Phase orchestrator (`_perform_install`, fabfile.py lines 72-107) -/

/-- The six install phases of `_perform_install`, listed in source order. -/
inductive Phase
  | packages | custom | chef_recipes | libraries | post_install | cleanup
deriving DecidableEq, Repr

/-- The target-string name each phase is compared against in `_perform_install`. -/
def phaseName : Phase → String
  | .packages => "packages"
  | .custom => "custom"
  | .chef_recipes => "chef_recipes"
  | .libraries => "libraries"
  | .post_install => "post_install"
  | .cleanup => "cleanup"

/-- The fixed source order of the six `if` blocks in `_perform_install`. -/
def allPhases : List Phase :=
  [.packages, .custom, .chef_recipes, .libraries, .post_install, .cleanup]

/-- Phase sequence executed by `_perform_install(target)`: six successive
`if target is None or target == "<name>":` blocks, each running its phase body
once when its guard holds. -/
def performInstall (target : Option String) : List Phase :=
  (if target = none ∨ target = some "packages" then [Phase.packages] else []) ++
  (if target = none ∨ target = some "custom" then [Phase.custom] else []) ++
  (if target = none ∨ target = some "chef_recipes" then [Phase.chef_recipes] else []) ++
  (if target = none ∨ target = some "libraries" then [Phase.libraries] else []) ++
  (if target = none ∨ target = some "post_install" then [Phase.post_install] else []) ++
  (if target = none ∨ target = some "cleanup" then [Phase.cleanup] else [])

/-- The guard of a phase's `if` block: run all (target is None) or exact match. -/
def applicableB (target : Option String) (ph : Phase) : Bool :=
  target = none || target = some (phaseName ph)

lemma mem_allPhases (ph : Phase) : ph ∈ allPhases := by
  cases ph <;> decide

lemma allPhases_nodup : allPhases.Nodup := by decide

lemma performInstall_eq_filter (t : Option String) :
    performInstall t = allPhases.filter (fun ph => applicableB t ph) := by
  simp only [performInstall, allPhases, List.filter, applicableB, phaseName]
  rcases t with _ | s
  · simp
  · by_cases h1 : s = "packages" <;> by_cases h2 : s = "custom" <;>
      by_cases h3 : s = "chef_recipes" <;> by_cases h4 : s = "libraries" <;>
      by_cases h5 : s = "post_install" <;> by_cases h6 : s = "cleanup" <;>
      simp_all

lemma performInstall_count (t : Option String) (ph : Phase) :
    (performInstall t).count ph = if applicableB t ph then 1 else 0 := by
  rw [performInstall_eq_filter]
  by_cases h : applicableB t ph
  · rw [if_pos h]
    have hmem : ph ∈ (allPhases.filter (fun ph => applicableB t ph)) :=
      List.mem_filter.mpr ⟨mem_allPhases ph, h⟩
    exact List.count_eq_one_of_mem (allPhases_nodup.filter _) hmem
  · rw [if_neg h]
    refine List.count_eq_zero_of_not_mem (fun hmem => ?_)
    exact h (List.mem_filter.mp hmem).2

/-- C1: for every target filter value, `_perform_install` executes exactly the
applicable phases, each exactly once, in the fixed source order packages,
custom, chef_recipes, libraries, post_install, cleanup; with target
"libraries" only the library phase runs, and with target None all six run in
that order. -/
theorem C1_perform_install_order (t : Option String) :
    performInstall t = allPhases.filter (fun ph => applicableB t ph) ∧
    (∀ ph : Phase, (performInstall t).count ph = if applicableB t ph then 1 else 0) ∧
    performInstall (some "libraries") = [Phase.libraries] ∧
    performInstall none = allPhases := by
  refine ⟨performInstall_eq_filter t, performInstall_count t, ?_, ?_⟩ <;> decide

/-! ### Package group resolver and the custom-install phase -/

/-- Modelled from the spec: `_yaml_to_packages` lives in
`cloudbio/package/shared.py`, which is not under `src/`.  Per spec section 4.2
it takes the config mapping (group name → member list) and the manifest of
group names to install, and produces the flattened package list (stable order
per group, as declared in the file) together with the reverse mapping from
each package identifier to its owning group name. -/
def yamlToPackages (config : List (String × List String))
    (toInstall : Option (List String)) : List String × List (String × String) :=
  let groups := config.filter (fun g => match toInstall with
    | none => true
    | some ti => decide (g.1 ∈ ti))
  (groups.foldr (fun g acc => g.2 ++ acc) [],
   groups.foldr (fun g acc => g.2.map (fun p => (p, g.1)) ++ acc) [])

/-- Package list and reverse mapping computed by `_custom_installs`
(fabfile.py lines 140-147): the `_yaml_to_packages` output with the flattened
list filtered by `[p for p in packages if ignore is None or p not in ignore]`;
`pkg_to_group` is passed on to `install_custom` unchanged. -/
def customInstalls (config : List (String × List String))
    (toInstall : Option (List String)) (ignore : Option (List String)) :
    List String × List (String × String) :=
  let pg := yamlToPackages config toInstall
  (pg.1.filter (fun p => match ignore with
    | none => true
    | some l => decide (p ∉ l)), pg.2)

lemma yamlToPackages_snd_keys (config : List (String × List String))
    (toInstall : Option (List String)) :
    ((yamlToPackages config toInstall).2.map Prod.fst) =
      (yamlToPackages config toInstall).1 := by
  simp only [yamlToPackages]
  induction config.filter _ with
  | nil => rfl
  | cons g gs ih =>
    simp only [List.foldr_cons, List.map_append, List.map_map, ih]
    rw [show (Prod.fst ∘ fun p => (p, g.1)) = id from rfl, List.map_id]

lemma lookup_isSome_of_mem_keys (p : String) (l : List (String × String))
    (h : p ∈ l.map Prod.fst) : (l.lookup p).isSome := by
  induction l with
  | nil => simp at h
  | cons kv l ih =>
    by_cases hk : p = kv.1
    · simp [List.lookup, beq_iff_eq, hk]
    · have hb : (p == kv.1) = false := beq_eq_false_iff_ne.mpr hk
      rw [List.map_cons] at h
      have h' : p ∈ l.map Prod.fst := by
        rcases List.mem_cons.mp h with h0 | h0
        · exact absurd h0 hk
        · exact h0
      simp [List.lookup, hb, ih h']

/-- C2: for every package-group config and ignore list `I`, the flattened
package list the custom-install phase iterates over excludes every member of
`I`, while the reverse package-to-group mapping passed on to the dispatcher
still has an entry for each member of `I` that the groups mention. -/
theorem C2_custom_installs_filter (config : List (String × List String))
    (toInstall : Option (List String)) (I : List String) (p : String)
    (hp : p ∈ I) :
    p ∉ (customInstalls config toInstall (some I)).1 ∧
    (p ∈ (yamlToPackages config toInstall).1 →
      ((customInstalls config toInstall (some I)).2.lookup p).isSome) := by
  constructor
  · intro hmem
    have := (List.mem_filter.mp hmem).2
    simp only [decide_eq_true_eq] at this
    exact this hp
  · intro hflat
    refine lookup_isSome_of_mem_keys p _ ?_
    show p ∈ (yamlToPackages config toInstall).2.map Prod.fst
    rw [yamlToPackages_snd_keys]
    exact hflat

/-- Witness for C2 at a concrete config: group `g` holds packages `a`, `b`,
ignore list `[a]`; `a` is dropped from the flattened list but keeps its
reverse-mapping entry. -/
theorem C2_custom_installs_filter_witness :
    "a" ∉ (customInstalls [("g", ["a", "b"])] none (some ["a"])).1 ∧
    ("a" ∈ (yamlToPackages [("g", ["a", "b"])] none).1 →
      ((customInstalls [("g", ["a", "b"])] none (some ["a"])).2.lookup "a").isSome) :=
  C2_custom_installs_filter [("g", ["a", "b"])] none ["a"] "a" (by decide)

/-! ### Custom install dispatcher (`install_custom`, fabfile.py lines 214-264) -/

/-- ASCII lower-casing, embedding the `p.lower()` call on package names. -/
def lowerStr (s : String) : String := (s.toList.map Char.toLower).asString

/-- Python `p.replace("-", "_")`, the only element of `replace_chars`. -/
def hyphenToUnderscore (s : String) : String :=
  (s.toList.map (fun c => if c = '-' then '_' else c)).asString

/-- Exceptions surfaced by `install_custom`: the `ImportError`s it raises
itself, and the `KeyError` that an unguarded `pkg_to_group[p]` lookup inside
either `except` handler raises when `p` is not a key. -/
inductive PyErr
  | importError (msg : String)
  | keyError (key : String)
deriving DecidableEq, Repr

/-- Which `cloudbio.custom.*` modules and which `install_*` functions exist,
abstracting Python module import and `getattr`. -/
structure CustomWorld where
  modules : List String
  funcs : List (String × String)

/-- Embedding of `install_custom(p, automated=True, pkg_to_group)` up to the
call `fn(env)`: lower-case the name; resolve the module under the
group-mapped name (`pkg_to_group[p] if p in pkg_to_group else p`, hyphens
intact); on import success translate hyphens to underscores and look up
`install_<name>`; `Except.ok` carries the module/function pair invoked with
`env`.  No remote command is issued before that invocation.  Both `except`
handlers interpolate `pkg_to_group[p]` into their message, so they raise
`KeyError` instead when the (possibly underscore-translated) name is not a
key of `pkg_to_group`. -/
def installCustom (w : CustomWorld) (pkgToGroup : List (String × String))
    (p0 : String) : Except PyErr (String × String) :=
  let p := lowerStr p0
  let modName := (pkgToGroup.lookup p).getD p
  if modName ∈ w.modules then
    let p2 := hyphenToUnderscore p
    if (modName, "install_" ++ p2) ∈ w.funcs then
      Except.ok (modName, "install_" ++ p2)
    else
      match pkgToGroup.lookup p2 with
      | some g => Except.error (.importError
          ("Need to write a install_" ++ p2 ++ " function in custom." ++ g))
      | none => Except.error (.keyError p2)
  else
    match pkgToGroup.lookup p with
    | some g => Except.error (.importError
        ("Need to write a " ++ g ++ " module in custom."))
    | none => Except.error (.keyError p)

/-- C3 (code bug): invoking `install_custom` with a name that is absent from
`pkg_to_group` and has no custom module raises `KeyError`, not the intended
descriptive `ImportError`, because the `except ImportError` handler itself
evaluates `pkg_to_group[p]`; with a group-mapped name whose module is missing
the intended `ImportError` does surface.  No invocation happens either way. -/
theorem C3_install_custom_unresolved :
    installCustom ⟨[], []⟩ [] "nosuchpkg" =
      Except.error (.keyError "nosuchpkg") ∧
    installCustom ⟨[], []⟩ [("mapped", "grp")] "mapped" =
      Except.error (.importError "Need to write a grp module in custom.") := by
  constructor <;> rfl

/-- C4: `install_custom` first lower-cases the name; the module-resolution key
is the group-mapped name with hyphens intact, while hyphens become
underscores only in the `install_<name>` function that is then invoked with
the run environment. -/
theorem C4_install_custom_name_translation (w : CustomWorld)
    (ptg : List (String × String)) (p : String)
    (hmod : ((ptg.lookup (lowerStr p)).getD (lowerStr p)) ∈ w.modules)
    (hfn : (((ptg.lookup (lowerStr p)).getD (lowerStr p)),
            "install_" ++ hyphenToUnderscore (lowerStr p)) ∈ w.funcs) :
    installCustom w ptg p =
      Except.ok (((ptg.lookup (lowerStr p)).getD (lowerStr p)),
                 "install_" ++ hyphenToUnderscore (lowerStr p)) := by
  simp only [installCustom, if_pos hmod, if_pos hfn]

/-- Witness for C4: name `My-Pkg` is lowered to `my-pkg`, resolved through the
group mapping to module `bio-tools` (hyphen kept), and dispatched to function
`install_my_pkg` (hyphen translated). -/
theorem C4_install_custom_name_translation_witness :
    installCustom ⟨["bio-tools"], [("bio-tools", "install_my_pkg")]⟩
        [("my-pkg", "bio-tools")] "My-Pkg" =
      Except.ok ("bio-tools", "install_my_pkg") := by
  have h := C4_install_custom_name_translation
    ⟨["bio-tools"], [("bio-tools", "install_my_pkg")]⟩
    [("my-pkg", "bio-tools")] "My-Pkg" (by decide) (by decide)
  simpa using h

/-! ### Main config loader (`_read_main_config`, fabfile.py lines 266-281) -/

/-- Value held under a key of the parsed `main.yaml` mapping: YAML null
(Python `None`) or a list of names. -/
inductive YVal
  | null
  | list (xs : List String)
deriving DecidableEq, Repr

/-- Lexicographic code-point order on char lists, as Python compares
strings. -/
def strLtList : List Char → List Char → Bool
  | [], [] => false
  | [], _ :: _ => true
  | _ :: _, [] => false
  | a :: as, b :: bs => if a = b then strLtList as bs else decide (a.val < b.val)

/-- Python `a <= b` on strings. -/
def pyStrLe (a b : String) : Bool := a == b || strLtList a.toList b.toList

/-- Python `sorted` on a list of strings. -/
def sortStrings (l : List String) : List String :=
  l.insertionSort (fun a b => pyStrLe a b)

/-- Embedding of `_read_main_config`: `full_data['packages']` and
`full_data['libraries']` raise `KeyError` when the key is absent, and only a
falsy (null or empty) value defaults to `[]`; `custom_ignore` is read with
`full_data.get('custom_ignore', [])`, so it defaults only when the key is
absent and is returned as-is (possibly `None`) when present.  The libraries
list is returned sorted. -/
def readMainConfig (fullData : List (String × YVal)) :
    Except String (List String × List String × YVal) :=
  match fullData.lookup "packages" with
  | none => Except.error "KeyError: packages"
  | some pv =>
    match fullData.lookup "libraries" with
    | none => Except.error "KeyError: libraries"
    | some lv =>
      let packages := match pv with | .null => [] | .list xs => xs
      let libraries := match lv with | .null => [] | .list xs => xs
      let customIgnore := (fullData.lookup "custom_ignore").getD (.list [])
      Except.ok (packages, sortStrings libraries, customIgnore)

/-- Counterexample to C9: a manifest missing the `packages` key makes
`_read_main_config` raise `KeyError` instead of defaulting to `[]`, and a
null `custom_ignore` value is returned as `None`, not `[]`. -/
theorem C9_counterexample :
    readMainConfig [("libraries", YVal.list ["r-libs"])] =
      Except.error "KeyError: packages" ∧
    readMainConfig [("packages", YVal.null), ("libraries", YVal.null),
        ("custom_ignore", YVal.null)] =
      Except.ok ([], [], YVal.null) ∧ YVal.null ≠ YVal.list [] := by
  refine ⟨rfl, rfl, by decide⟩

/-- Python truthiness defaulting `x if x else []` applied to a looked-up
manifest value: a null becomes the empty list, a list stays itself (an empty
list is already `[]`). -/
def denull : YVal → List String
  | .null => []
  | .list xs => xs

/-- C9 as amended: a null `packages`/`libraries` value defaults to `[]`, but
an absent `packages` or `libraries` key raises `KeyError` (packages is read
first); any combination of present null/list values succeeds, with libraries
sorted; `custom_ignore` defaults to `[]` only when the key is absent, and a
null value is passed through as `None`. -/
theorem C9_read_main_config_defaults (data : List (String × YVal)) :
    (data.lookup "packages" = none →
      readMainConfig data = Except.error "KeyError: packages") ∧
    (∀ pv, data.lookup "packages" = some pv → data.lookup "libraries" = none →
      readMainConfig data = Except.error "KeyError: libraries") ∧
    (∀ pv lv, data.lookup "packages" = some pv → data.lookup "libraries" = some lv →
      readMainConfig data =
        Except.ok (denull pv, sortStrings (denull lv),
          (data.lookup "custom_ignore").getD (.list []))) := by
  refine ⟨fun h => by simp [readMainConfig, h], fun pv hp hl => ?_,
    fun pv lv hp hl => ?_⟩
  · simp [readMainConfig, hp, hl]
  · cases pv <;> cases lv <;> simp [readMainConfig, hp, hl, denull]

/-- Witness for C9 (amended): null `packages` and `libraries` yield empty
lists without failing with a present-but-null `custom_ignore` coming back as
`None`; a mixed null/list pair succeeds with the libraries sorted; and an
absent `libraries` key fails with its `KeyError`. -/
theorem C9_read_main_config_defaults_witness :
    readMainConfig [("packages", YVal.null), ("libraries", YVal.null),
        ("custom_ignore", YVal.null)] = Except.ok ([], [], YVal.null) ∧
    readMainConfig [("packages", YVal.null),
        ("libraries", YVal.list ["r-libs", "python-libs"])] =
      Except.ok ([], ["python-libs", "r-libs"], YVal.list []) ∧
    readMainConfig [("packages", YVal.list ["minimal"])] =
      Except.error "KeyError: libraries" := by
  refine ⟨?_, ?_, ?_⟩
  · have h := (C9_read_main_config_defaults
      [("packages", YVal.null), ("libraries", YVal.null),
       ("custom_ignore", YVal.null)]).2.2 YVal.null YVal.null rfl rfl
    rw [h]
    rfl
  · have h := (C9_read_main_config_defaults
      [("packages", YVal.null),
       ("libraries", YVal.list ["r-libs", "python-libs"])]).2.2
      YVal.null (YVal.list ["r-libs", "python-libs"]) rfl rfl
    rw [h]
    rfl
  · exact (C9_read_main_config_defaults
      [("packages", YVal.list ["minimal"])]).2.1 (YVal.list ["minimal"]) rfl rfl

/-! ### CloudMan launch image resolution (`cloudman_launch`,
cloudbio/deploy/cloudman.py lines 42-63) -/

/-- One deployment entry of `snaps.yaml`. -/
structure Deployment where
  default_mi : String
deriving DecidableEq, Repr, Inhabited

/-- One region entry of `snaps.yaml`. -/
structure Region where
  deployments : List Deployment
deriving DecidableEq, Repr, Inhabited

/-- One cloud entry of `snaps.yaml`. -/
structure Cloud where
  regions : List Region
deriving DecidableEq, Repr, Inhabited

/-- The parsed `snaps.yaml` manifest. -/
structure Snaps where
  clouds : List Cloud
deriving DecidableEq, Repr, Inhabited

/-- Embedding of the `__use_snaps__` branch of `cloudman_launch`: read
`snaps["clouds"]`, require exactly one cloud, then exactly one region, then
exactly one deployment, raising a descriptive exception otherwise, and
return that deployment's `default_mi` as the image id. -/
def cloudmanResolveImage (snaps : Snaps) : Except String String :=
  let clouds := snaps.clouds
  if clouds.length ≠ 1 then
    Except.error "Exactly one cloud must be defined snaps.yaml for the deployer's CloudMan launch to work."
  else
    let regions := clouds.headI.regions
    if regions.length ≠ 1 then
      Except.error "Exactly one region must be defined snaps.yaml for the deployer's CloudMan launch to work."
    else
      let deployments := regions.headI.deployments
      if deployments.length ≠ 1 then
        Except.error "Exactly one deployment must be defined snaps.yaml for the deployer's CloudMan launch to work."
      else
        Except.ok deployments.headI.default_mi

/-- C8: the snapshot-manifest image resolution fails with an exception
exactly when the clouds list, the selected cloud's regions list, or the
selected region's deployments list does not have length one, and with
exactly one of each it returns that deployment's `default_mi`. -/
theorem C8_cloudman_exactly_one (snaps : Snaps) :
    ((∃ msg, cloudmanResolveImage snaps = Except.error msg) ↔
      (snaps.clouds.length ≠ 1 ∨ snaps.clouds.headI.regions.length ≠ 1 ∨
       snaps.clouds.headI.regions.headI.deployments.length ≠ 1)) ∧
    (∀ c r d, snaps.clouds = [c] → c.regions = [r] → r.deployments = [d] →
      cloudmanResolveImage snaps = Except.ok d.default_mi) := by
  constructor
  · by_cases h1 : snaps.clouds.length = 1
    · by_cases h2 : snaps.clouds.headI.regions.length = 1
      · by_cases h3 : snaps.clouds.headI.regions.headI.deployments.length = 1
        · simp [cloudmanResolveImage, h1, h2, h3]
        · simp [cloudmanResolveImage, h1, h2, h3]
      · simp [cloudmanResolveImage, h1, h2]
    · simp [cloudmanResolveImage, h1]
  · intro c r d hc hr hd
    simp [cloudmanResolveImage, hc, hr, hd, List.headI]

/-- Witness for C8: a manifest with one cloud, one region and one deployment
resolves to that deployment's `default_mi`. -/
theorem C8_cloudman_exactly_one_witness :
    cloudmanResolveImage ⟨[⟨[⟨[⟨"ami-1"⟩]⟩]⟩]⟩ = Except.ok "ami-1" :=
  (C8_cloudman_exactly_one ⟨[⟨[⟨[⟨"ami-1"⟩]⟩]⟩]⟩).2 ⟨[⟨[⟨"ami-1"⟩]⟩]⟩
    ⟨[⟨"ami-1"⟩]⟩ ⟨"ami-1"⟩ rfl rfl rfl

/-! ### Chef node properties (`build_chef_properties`,
cloudbio/chef_utils.py lines 5-28) -/

/-- Python value as seen by `isinstance(value, str)`: a string, or any
non-string value (tagged so distinct non-strings stay distinct). -/
inductive PyVal
  | str (s : String)
  | other (tag : Nat)
deriving DecidableEq, Repr

/-- Dict assignment `d[k] = v`: replace in place when the key exists, else
append (Python dicts preserve insertion order). -/
def dinsert (d : List (String × PyVal)) (k : String) (v : PyVal) :
    List (String × PyVal) :=
  match d with
  | [] => [(k, v)]
  | (k0, v0) :: rest =>
    if k0 = k then (k0, v) :: rest else (k0, v0) :: dinsert rest k v

/-- Python `key.startswith("chef_")`. -/
def startsWithChef (s : String) : Bool :=
  s.toList.take 5 = ['c', 'h', 'e', 'f', '_']

/-- Python `key[len("chef_"):]`. -/
def dropChefPrefix (s : String) : String := (s.toList.drop 5).asString

/-- The key an environment entry is stored under when it is added:
`chef_`-prefixed keys lose the prefix, all others gain `cloudbiolinux_`. -/
def chefTargetKey (k : String) : String :=
  if startsWithChef k then dropChefPrefix k else "cloudbiolinux_" ++ k

/-- Loop body of `build_chef_properties`: skip an item whose key is already
in the (mutating) mapping or whose value is not a string; otherwise store the
value under `chefTargetKey`. -/
def chefStep (props : List (String × PyVal)) (kv : String × PyVal) :
    List (String × PyVal) :=
  match kv.2 with
  | .other _ => props
  | .str v =>
    if (props.lookup kv.1).isSome then props
    else dinsert props (chefTargetKey kv.1) (.str v)

/-- Embedding of `build_chef_properties(env, config_file)`: start from the
parsed `node_extra.json` mapping and fold the fabric environment items into
it in iteration order. -/
def buildChefProperties (envItems : List (String × PyVal))
    (jsonProperties : List (String × PyVal)) : List (String × PyVal) :=
  envItems.foldl chefStep jsonProperties

/-- Counterexample to C10: with parsed config `{"x": "orig"}` and an
environment entry `chef_x = "v"`, the raw key `chef_x` is not in the mapping,
so the stripped key `x` is assigned and the file's original value is
overridden. -/
theorem C10_counterexample :
    (buildChefProperties [("chef_x", PyVal.str "v")]
        [("x", PyVal.str "orig")]).lookup "x" = some (PyVal.str "v") ∧
    PyVal.str "v" ≠ PyVal.str "orig" := by
  refine ⟨by decide, by decide⟩

lemma dinsert_lookup_ne (d : List (String × PyVal)) (k k' : String) (v : PyVal)
    (h : k' ≠ k) : ((dinsert d k' v).lookup k) = d.lookup k := by
  have hb : (k == k') = false := beq_eq_false_iff_ne.mpr (Ne.symm h)
  induction d with
  | nil => simp [dinsert, List.lookup, hb]
  | cons kv rest ih =>
    rcases kv with ⟨k0, v0⟩
    by_cases h0 : k0 = k'
    · subst h0
      simp [dinsert, List.lookup, hb]
    · simp only [dinsert, if_neg h0, List.lookup]
      by_cases hk : (k == k0)
      · simp [hk]
      · simp [hk, ih]

lemma chefStep_lookup_ne (props : List (String × PyVal)) (kv : String × PyVal)
    (k : String) (h : chefTargetKey kv.1 ≠ k) :
    (chefStep props kv).lookup k = props.lookup k := by
  rcases kv with ⟨k0, v0⟩
  rcases v0 with v | t
  · simp only [chefStep]
    by_cases hmem : (props.lookup k0).isSome
    · simp [hmem]
    · simp only [hmem, if_neg, Bool.false_eq_true, not_false_eq_true, if_false]
      exact dinsert_lookup_ne props k (chefTargetKey k0) (.str v) h
  · rfl

/-- C10 as amended: `build_chef_properties` keeps a parsed entry's value for
every key that no string-valued environment item's transformed key
(`chef_`-stripped or `cloudbiolinux_`-prefixed) collides with — but such a
collision does override the file's value, since only the raw environment key
is checked against the mapping; environment items with non-string values are
omitted entirely; and a string-valued item whose raw key is not yet in the
mapping is stored under its transformed key. -/
theorem C10_build_chef_properties (envItems : List (String × PyVal))
    (fileProps : List (String × PyVal)) (k : String) :
    ((∀ kv ∈ envItems, chefTargetKey kv.1 ≠ k) →
      (buildChefProperties envItems fileProps).lookup k = fileProps.lookup k) ∧
    (buildChefProperties
        (envItems.filter (fun kv => match kv.2 with | .str _ => true | .other _ => false))
        fileProps = buildChefProperties envItems fileProps) ∧
    (∀ k0 v, (fileProps.lookup k0).isSome = false →
      buildChefProperties [(k0, PyVal.str v)] fileProps =
        dinsert fileProps (chefTargetKey k0) (.str v)) := by
  refine ⟨?_, ?_, ?_⟩
  · induction envItems generalizing fileProps with
    | nil => intro _; rfl
    | cons kv rest ih =>
      intro h
      have hkv := h kv (List.mem_cons_self kv rest)
      have hrest : ∀ kv' ∈ rest, chefTargetKey kv'.1 ≠ k :=
        fun kv' hm => h kv' (List.mem_cons_of_mem kv hm)
      calc (buildChefProperties (kv :: rest) fileProps).lookup k
          = (buildChefProperties rest (chefStep fileProps kv)).lookup k := rfl
        _ = (chefStep fileProps kv).lookup k := ih _ hrest
        _ = fileProps.lookup k := chefStep_lookup_ne fileProps kv k hkv
  · induction envItems generalizing fileProps with
    | nil => rfl
    | cons kv rest ih =>
      rcases kv with ⟨k0, v0⟩
      rcases v0 with v | t
      · simpa [buildChefProperties, List.filter] using ih (chefStep fileProps (k0, .str v))
      · simpa [buildChefProperties, List.filter, chefStep] using ih fileProps
  · intro k0 v hmem
    simp [buildChefProperties, chefStep, hmem]

/-- Witness for C10 (amended) at concrete inputs: the parsed value of `kept`
survives an environment holding a non-string item and a `chef_new` item, and
the `chef_new` item lands under key `new`. -/
theorem C10_build_chef_properties_witness :
    (buildChefProperties [("skip", PyVal.other 0), ("chef_new", PyVal.str "v")]
        [("kept", PyVal.str "orig")]).lookup "kept" = some (PyVal.str "orig") ∧
    buildChefProperties [("chef_new", PyVal.str "v")] [("kept", PyVal.str "orig")] =
      dinsert [("kept", PyVal.str "orig")] (chefTargetKey "chef_new") (.str "v") := by
  constructor
  · exact (C10_build_chef_properties
      [("skip", PyVal.other 0), ("chef_new", PyVal.str "v")]
      [("kept", PyVal.str "orig")] "kept").1 (by decide)
  · exact (C10_build_chef_properties [("chef_new", PyVal.str "v")]
      [("kept", PyVal.str "orig")] "kept").2.2 "chef_new" "v" (by decide)

/-! ### Library installers (fabfile.py lines 285-396) -/

/-- Ordered events emitted by a library installer: remote `run`, privileged
`env.safe_sudo`, `append(file, content)`, and a call of the flavor hook
`env.flavor.rewrite_config_items(category, items)`. -/
inductive Ev
  | run (cmd : String)
  | sudo (cmd : String)
  | appendFile (file : String) (content : String)
  | rewrite (category : String) (items : List String)
deriving DecidableEq, Repr

/-- Number of flavor rewrite-hook calls in a trace. -/
def countRewrites (t : List Ev) : Nat :=
  t.countP (fun e => match e with | Ev.rewrite _ _ => true | _ => false)

/-- Config for `_r_library_installer`: CRAN/Bioconductor repos and package
lists. -/
structure RConfig where
  cranrepo : String
  biocrepo : String
  cran : List String
  bioc : List String

/-- Python `", ".join('"%s"' % p for p in l)`. -/
def quoteJoin (l : List String) : String :=
  String.intercalate ", " (l.map (fun p => "\"" ++ p ++ "\""))

/-- The `repo_info` script block of `_r_library_installer`. -/
def rRepoInfo (c : RConfig) : String :=
  "\n    cran.repos <- getOption(\"repos\")\n    cran.repos[\"CRAN\" ] <- \"" ++
  c.cranrepo ++ "\"\n    options(repos=cran.repos)\n    source(\"" ++
  c.biocrepo ++ "\")\n    "

/-- The `install_fn` script block of `_r_library_installer`. -/
def rInstallFn : String :=
  "\n    repo.installer <- function(repos, install.fn) \x7b\n      update.or.install <- function(pname) \x7b\n        if (pname %in% installed.packages())\n          update.packages(lib.loc=c(pname), repos=repos, ask=FALSE)\n        else\n          install.fn(pname)\n      \x7d\n    \x7d\n    "

/-- The `std_install` script block of `_r_library_installer`. -/
def rStdInstall (c : RConfig) : String :=
  "\n    std.pkgs <- c(" ++ quoteJoin c.cran ++
  ")\n    std.installer = repo.installer(cran.repos, install.packages)\n    lapply(std.pkgs, std.installer)\n    "

/-- The `bioc_install` script block of `_r_library_installer`. -/
def rBiocInstall (c : RConfig) : String :=
  "\n    bioc.pkgs <- c(" ++ quoteJoin c.bioc ++
  ")\n    bioc.installer = repo.installer(biocinstallRepos(), biocLite)\n    lapply(bioc.pkgs, bioc.installer)\n    "

/-- The `final_update` script block of `_r_library_installer`. -/
def rFinalUpdate : String :=
  "\n    update.packages(repos=biocinstallRepos(), ask=FALSE)\n    update.packages(ask=FALSE)\n    "

/-- Embedding of `_r_library_installer(config)`: build `install_packages.R`
by appending five script blocks, run it under sudo, delete it.  It never
calls the flavor rewrite hook. -/
def rLibraryInstaller (outFileExists : Bool) (config : RConfig) : List Ev :=
  (if outFileExists then [Ev.run "rm -f install_packages.R"] else []) ++
  [Ev.run "touch install_packages.R",
   Ev.appendFile "install_packages.R" (rRepoInfo config),
   Ev.appendFile "install_packages.R" rInstallFn,
   Ev.appendFile "install_packages.R" (rStdInstall config),
   Ev.appendFile "install_packages.R" (rBiocInstall config),
   Ev.appendFile "install_packages.R" rFinalUpdate,
   Ev.sudo "Rscript install_packages.R",
   Ev.run "rm -f install_packages.R"]

/-- Config for `_python_library_installer`. -/
structure PyConfig where
  pypi : List String

/-- Embedding of `_python_library_installer(config)`: upgrade pip via
easy_install, call the rewrite hook once on `config['pypi']`, then pip
install each rewritten item. -/
def pythonLibraryInstaller (pythonVersionExt : String) (pipCmd : String)
    (rw : String → List String → List String) (config : PyConfig) : List Ev :=
  let versionExt := if pythonVersionExt = "" then "" else "-" ++ pythonVersionExt
  [Ev.sudo ("easy_install" ++ versionExt ++ " -U pip"),
   Ev.rewrite "python" config.pypi] ++
  (rw "python" config.pypi).map (fun pname =>
    Ev.sudo (pipCmd ++ " install --upgrade " ++ pname))

/-- Config for `_ruby_library_installer`. -/
structure RubyConfig where
  gems : List String

/-- State of the ruby installer loop: the `installed` gem list, how many
`_cur_gems` queries ran so far (indexing the oracle of query results), and
the event trace. -/
structure RubySt where
  installed : List String
  nq : Nat
  trace : List Ev
deriving Repr

/-- Remote command issued by `_cur_gems`. -/
def gemListCmd (ext : String) : String := "gem" ++ ext ++ " list --no-versions"

/-- Loop body of `_ruby_library_installer`: re-run `_cur_gems` only when the
gem is missing from the current set, then `gem update` when present and
`gem install` when absent. -/
def rubyStep (oracle : Nat → List String) (ext : String) (st : RubySt)
    (gem : String) : RubySt :=
  let st :=
    if gem ∈ st.installed then st
    else { installed := oracle st.nq, nq := st.nq + 1,
           trace := st.trace ++ [Ev.run (gemListCmd ext)] }
  if gem ∈ st.installed then
    { st with trace := st.trace ++ [Ev.sudo ("gem" ++ ext ++ " update " ++ gem)] }
  else
    { st with trace := st.trace ++ [Ev.sudo ("gem" ++ ext ++ " install " ++ gem)] }

/-- Embedding of `_ruby_library_installer(config)`: one up-front `_cur_gems`
query, then the rewrite hook on `config['gems']`, then the per-gem loop.
The `oracle` gives the result of the i-th `gem list` query. -/
def rubyLibraryInstaller (oracle : Nat → List String) (ext : String)
    (rw : String → List String → List String) (config : RubyConfig) : RubySt :=
  let st0 : RubySt :=
    { installed := oracle 0, nq := 1,
      trace := [Ev.run (gemListCmd ext), Ev.rewrite "ruby" config.gems] }
  (rw "ruby" config.gems).foldl (rubyStep oracle ext) st0

/-- Config for `_perl_library_installer`. -/
structure PerlConfig where
  cpan : List String

/-- Embedding of `_perl_library_installer(config)`: bootstrap cpanm, call the
rewrite hook once on `config['cpan']`, then run cpanm per rewritten item. -/
def perlLibraryInstaller (useSudo : Bool) (systemInstall : String)
    (rw : String → List String → List String) (config : PerlConfig) : List Ev :=
  [Ev.run "wget --no-check-certificate -O cpanm https://raw.github.com/miyagawa/cpanminus/master/cpanm",
   Ev.run "chmod a+rwx cpanm",
   Ev.sudo ("mv cpanm " ++ systemInstall ++ "/bin"),
   Ev.rewrite "perl" config.cpan] ++
  (rw "perl" config.cpan).map (fun lib =>
    Ev.run ("cpanm " ++ (if useSudo then "--sudo" else "") ++
      " --skip-installed --notest " ++ lib ++ " < /dev/null"))

/-- Config for `_clojure_library_installer`. -/
structure ClojureConfig where
  cljr : List String

/-- Embedding of `_clojure_library_installer(config)`: one `cljr install` per
configured library, no rewrite hook. -/
def clojureLibraryInstaller (config : ClojureConfig) : List Ev :=
  config.cljr.map (fun lib => Ev.run ("cljr install " ++ lib))

/-- Config for `_haskell_library_installer`. -/
structure HaskellConfig where
  cabal : List String

/-- Embedding of `_haskell_library_installer(config)`: `cabal update`, then
one `cabal install` per configured library, no rewrite hook. -/
def haskellLibraryInstaller (useSudo : Bool) (config : HaskellConfig) : List Ev :=
  Ev.run "cabal update" ::
  config.cabal.map (fun lib =>
    Ev.run ("cabal install " ++ (if useSudo then "--root-cmd=sudo" else "") ++
      " --global " ++ lib))

/-- Counterexample to C6: the clojure, haskell and R installers are in the
dispatch table yet make zero rewrite-hook calls per invocation, not one. -/
theorem C6_counterexample :
    countRewrites (clojureLibraryInstaller ⟨["incanter"]⟩) = 0 ∧
    countRewrites (haskellLibraryInstaller false ⟨["pandoc"]⟩) = 0 ∧
    countRewrites (rLibraryInstaller false
      ⟨"http://cran.fhcrc.org", "http://bioconductor.org/biocLite.R",
       ["ggplot2"], ["Biostrings"]⟩) = 0 ∧
    ¬ countRewrites (clojureLibraryInstaller ⟨["incanter"]⟩) = 1 := by
  refine ⟨rfl, rfl, rfl, by decide⟩

/-- Per-gem event sequence as the C7 claim words it: for each configured gem,
re-query the installed set only when the gem is not found in the current set,
then issue a `gem update` when the gem is present in the (possibly
re-queried) set and a `gem install` when it is absent. -/
def rubyGemEvents (oracle : Nat → List String) (ext : String) :
    List String → List String → Nat → List Ev
  | [], _, _ => []
  | g :: gs, installed, nq =>
    if g ∈ installed then
      Ev.sudo ("gem" ++ ext ++ " update " ++ g) ::
        rubyGemEvents oracle ext gs installed nq
    else
      Ev.run (gemListCmd ext) ::
      (if g ∈ oracle nq then Ev.sudo ("gem" ++ ext ++ " update " ++ g)
       else Ev.sudo ("gem" ++ ext ++ " install " ++ g)) ::
      rubyGemEvents oracle ext gs (oracle nq) (nq + 1)

lemma rubyFold_trace (oracle : Nat → List String) (ext : String)
    (gems : List String) (st : RubySt) :
    (gems.foldl (rubyStep oracle ext) st).trace =
      st.trace ++ rubyGemEvents oracle ext gems st.installed st.nq := by
  induction gems generalizing st with
  | nil => simp [rubyGemEvents]
  | cons g gs ih =>
    rw [List.foldl_cons, ih]
    by_cases hmem : g ∈ st.installed
    · simp [rubyStep, rubyGemEvents, hmem]
    · by_cases h2 : g ∈ oracle st.nq
      · simp [rubyStep, rubyGemEvents, hmem, h2]
      · simp [rubyStep, rubyGemEvents, hmem, h2]

lemma rubyGemEvents_no_rewrite (oracle : Nat → List String) (ext : String)
    (gems : List String) (installed : List String) (nq : Nat) :
    countRewrites (rubyGemEvents oracle ext gems installed nq) = 0 := by
  induction gems generalizing installed nq with
  | nil => rfl
  | cons g gs ih =>
    by_cases hmem : g ∈ installed
    · simp [rubyGemEvents, hmem, countRewrites, List.countP_cons] at ih ⊢
      exact ih installed nq
    · by_cases h2 : g ∈ oracle nq
      · simp [rubyGemEvents, hmem, h2, countRewrites, List.countP_cons] at ih ⊢
        exact ih (oracle nq) (nq + 1)
      · simp [rubyGemEvents, hmem, h2, countRewrites, List.countP_cons] at ih ⊢
        exact ih (oracle nq) (nq + 1)

/-- C7: `_ruby_library_installer` queries the installed gems once up front,
then for each configured gem re-queries only on a miss, updating gems found
in the (possibly re-queried) set and installing the rest — the whole trace
refines the claim's per-gem description `rubyGemEvents`. -/
theorem C7_ruby_installer_trace (oracle : Nat → List String) (ext : String)
    (rw : String → List String → List String) (config : RubyConfig) :
    (rubyLibraryInstaller oracle ext rw config).trace =
      Ev.run (gemListCmd ext) :: Ev.rewrite "ruby" config.gems ::
        rubyGemEvents oracle ext (rw "ruby" config.gems) (oracle 0) 1 := by
  unfold rubyLibraryInstaller
  rw [rubyFold_trace]
  rfl

/-- C6 as amended: per invocation, the python, ruby and perl installers call
the flavor rewrite hook exactly once — after the config is handed in and
before the per-item iteration (for ruby, right after the up-front gem
query) — while the r, clojure and haskell installers never call it. -/
theorem C6_rewrite_hook_calls (pythonVersionExt pipCmd : String)
    (pyCfg : PyConfig) (oracle : Nat → List String) (ext : String)
    (rubyCfg : RubyConfig) (useSudo : Bool) (systemInstall : String)
    (perlCfg : PerlConfig) (outFileExists : Bool) (rCfg : RConfig)
    (cljCfg : ClojureConfig) (hsCfg : HaskellConfig)
    (rw : String → List String → List String) :
    countRewrites (pythonLibraryInstaller pythonVersionExt pipCmd rw pyCfg) = 1 ∧
    countRewrites (rubyLibraryInstaller oracle ext rw rubyCfg).trace = 1 ∧
    countRewrites (perlLibraryInstaller useSudo systemInstall rw perlCfg) = 1 ∧
    countRewrites (rLibraryInstaller outFileExists rCfg) = 0 ∧
    countRewrites (clojureLibraryInstaller cljCfg) = 0 ∧
    countRewrites (haskellLibraryInstaller useSudo hsCfg) = 0 ∧
    pythonLibraryInstaller pythonVersionExt pipCmd rw pyCfg =
      [Ev.sudo ("easy_install" ++
          (if pythonVersionExt = "" then "" else "-" ++ pythonVersionExt) ++
          " -U pip"),
       Ev.rewrite "python" pyCfg.pypi] ++
      (rw "python" pyCfg.pypi).map (fun pname =>
        Ev.sudo (pipCmd ++ " install --upgrade " ++ pname)) ∧
    (rubyLibraryInstaller oracle ext rw rubyCfg).trace =
      Ev.run (gemListCmd ext) :: Ev.rewrite "ruby" rubyCfg.gems ::
        rubyGemEvents oracle ext (rw "ruby" rubyCfg.gems) (oracle 0) 1 ∧
    perlLibraryInstaller useSudo systemInstall rw perlCfg =
      [Ev.run "wget --no-check-certificate -O cpanm https://raw.github.com/miyagawa/cpanminus/master/cpanm",
       Ev.run "chmod a+rwx cpanm",
       Ev.sudo ("mv cpanm " ++ systemInstall ++ "/bin"),
       Ev.rewrite "perl" perlCfg.cpan] ++
      (rw "perl" perlCfg.cpan).map (fun lib =>
        Ev.run ("cpanm " ++ (if useSudo then "--sudo" else "") ++
          " --skip-installed --notest " ++ lib ++ " < /dev/null")) := by
  have hruby : (rubyLibraryInstaller oracle ext rw rubyCfg).trace =
      Ev.run (gemListCmd ext) :: Ev.rewrite "ruby" rubyCfg.gems ::
        rubyGemEvents oracle ext (rw "ruby" rubyCfg.gems) (oracle 0) 1 := by
    unfold rubyLibraryInstaller
    rw [rubyFold_trace]
    rfl
  refine ⟨?_, ?_, ?_, ?_, ?_, ?_, rfl, hruby, rfl⟩
  · simp [pythonLibraryInstaller, countRewrites, List.countP_append,
      List.countP_map, List.countP_cons]
  · rw [hruby]
    have h0 := rubyGemEvents_no_rewrite oracle ext (rw "ruby" rubyCfg.gems) (oracle 0) 1
    simp [countRewrites, List.countP_cons] at h0 ⊢
    exact h0
  · simp [perlLibraryInstaller, countRewrites, List.countP_append,
      List.countP_map, List.countP_cons]
  · cases outFileExists <;>
      simp [rLibraryInstaller, countRewrites, List.countP_append, List.countP_cons]
  · simp [clojureLibraryInstaller, countRewrites, List.countP_map]
  · simp [haskellLibraryInstaller, countRewrites, List.countP_map, List.countP_cons]

/-! ### JSON-with-comments parser (`_parse_json` and `_comment_re`,
cloudbio/chef_utils.py lines 30-59) -/

/-- Characters of the regex class `[^\S\n]`: whitespace other than
newline. -/
def wsNoNL (c : Char) : Bool :=
  c = ' ' || c = '\t' || c = '\r' || c = '\x0b' || c = '\x0c'

/-- Length of the maximal `[^\S\n]*` prefix. -/
def takeWsLen : List Char → Nat
  | [] => 0
  | c :: rest => if wsNoNL c then takeWsLen rest + 1 else 0

/-- Index of the first `*/` occurrence: the span the non-greedy `(.*?)\*/`
commits to (DOTALL, so the content may cross newlines). -/
def findClose : List Char → Option Nat
  | '*' :: '/' :: _ => some 0
  | _ :: rest => (findClose rest).map (· + 1)
  | [] => none

/-- Length of a `[^\n]*` run. -/
def countToNL : List Char → Nat
  | [] => 0
  | c :: rest => if c = '\n' then 0 else countToNL rest + 1

/-- Length of a `_comment_re` match anchored at the head of `l`:
`[^\S\n]*`, a `/`, then either the block form `\*(.*?)\*/[^\S\n]*` or the
line form `/[^\n]*`.  The `(^)?` and `($)?` groups are zero-width and leave
the matched span unchanged, and the whitespace chars before the `/` admit
exactly one backtracking solution. -/
def matchLenAt (l : List Char) : Option Nat :=
  let j := takeWsLen l
  match l.drop j with
  | '/' :: '*' :: rest =>
    match findClose rest with
    | some k => some (j + 2 + k + 2 + takeWsLen (rest.drop (k + 2)))
    | none => none
  | '/' :: '/' :: rest => some (j + 2 + countToNL rest)
  | _ => none

/-- Leftmost `_comment_re` match: smallest start index carrying a match, with
the match length there (`re.search` semantics). -/
def searchComment : List Char → Option (Nat × Nat)
  | [] => none
  | l@(_ :: rest) =>
    match matchLenAt l with
    | some len => some (0, len)
    | none => (searchComment rest).map (fun p => (p.1 + 1, p.2))

/-- The comment-removal loop of `_parse_json`: while a match exists, splice
it out (`content[:match.start()] + content[match.end():]`) and search again.
Every match spans at least two characters, so `content.length` iterations of
fuel always suffice. -/
def stripLoop : Nat → List Char → List Char
  | 0, content => content
  | fuel + 1, content =>
    match searchComment content with
    | none => content
    | some (s, len) => stripLoop fuel (content.take s ++ content.drop (s + len))

/-- Comment stripping as `_parse_json` performs it before `json.loads`. -/
def stripComments (content : List Char) : List Char :=
  stripLoop content.length content

/-- JSON value for the subset these node configs use. -/
inductive Json
  | num (n : Int)
  | str (s : String)
  | obj (fields : List (String × Json))

/-- JSON whitespace accepted between tokens by `json.loads`. -/
def jsonWs (c : Char) : Bool := c = ' ' || c = '\t' || c = '\n' || c = '\r'

/-- Drop leading JSON whitespace. -/
def skipWs : List Char → List Char
  | [] => []
  | c :: rest => if jsonWs c then skipWs rest else c :: rest

/-- Read the characters of a string literal up to the closing quote
(escape-free subset; a backslash or an unterminated literal fails). -/
def parseStrChars : List Char → Option (List Char × List Char)
  | [] => none
  | '"' :: rest => some ([], rest)
  | '\\' :: _ => none
  | c :: rest => (parseStrChars rest).map (fun p => (c :: p.1, p.2))

/-- Read a nonempty digit run as a natural number. -/
def parseNat (l : List Char) : Option (Nat × List Char) :=
  let ds := l.takeWhile (fun c => c.isDigit)
  if ds.isEmpty then none
  else some (ds.foldl (fun acc c => acc * 10 + (c.toNat - 48)) 0, l.drop ds.length)

mutual

/-- Parse one JSON value (object, string or integer), `json.loads` style. -/
def parseValue : Nat → List Char → Option (Json × List Char)
  | 0, _ => none
  | fuel + 1, l =>
    match skipWs l with
    | '"' :: rest =>
      match parseStrChars rest with
      | some (cs, rest2) => some (Json.str cs.asString, rest2)
      | none => none
    | '\x7b' :: rest =>
      match skipWs rest with
      | '\x7d' :: rest2 => some (Json.obj [], rest2)
      | rest2 =>
        match parseMembers fuel rest2 with
        | some (fields, rest3) =>
          match skipWs rest3 with
          | '\x7d' :: rest4 => some (Json.obj fields, rest4)
          | _ => none
        | none => none
    | '-' :: rest =>
      match parseNat rest with
      | some (n, rest2) => some (Json.num (-(n : Int)), rest2)
      | none => none
    | l2 =>
      match parseNat l2 with
      | some (n, rest2) => some (Json.num (n : Int), rest2)
      | none => none

/-- Parse the comma-separated `"key": value` members of an object body. -/
def parseMembers : Nat → List Char → Option (List (String × Json) × List Char)
  | 0, _ => none
  | fuel + 1, l =>
    match skipWs l with
    | '"' :: rest =>
      match parseStrChars rest with
      | some (kcs, rest2) =>
        match skipWs rest2 with
        | ':' :: rest3 =>
          match parseValue fuel rest3 with
          | some (v, rest4) =>
            match skipWs rest4 with
            | ',' :: rest5 =>
              match parseMembers fuel rest5 with
              | some (fields, rest6) => some ((kcs.asString, v) :: fields, rest6)
              | none => none
            | rest5 => some ([(kcs.asString, v)], rest5)
          | none => none
        | _ => none
      | none => none
    | _ => none

end

/-- Standard JSON parse of a whole document (`json.loads`), for the
escape-free object/string/integer subset these configs use: one value, then
only trailing whitespace. -/
def jsonLoads (content : List Char) : Option Json :=
  match parseValue (content.length + 1) content with
  | some (v, rest) => if (skipWs rest).isEmpty then some v else none
  | none => none

/-- Embedding of `_parse_json(filename)` on the file's text: strip comments
with the `_comment_re` search-and-remove loop, then `json.loads`. -/
def parseJson (content : String) : Option Json :=
  jsonLoads (stripComments content.toList)

/-- C5: the JSON-with-comments parser strips `//` line and `/* */` block
comments before standard JSON parsing; the claim's example yields the
mapping a ↦ 1, b ↦ 2; a block comment spanning two lines is fully stripped;
and a `//` marker inside a quoted string is still treated as a comment (the
tail of the document is cut away and the parse fails), so markers inside
string literals are not special-cased. -/
theorem C5_parse_json_comments :
    parseJson "\x7b\"a\": 1 /* x */, \"b\": 2 // y\n\x7d" =
      some (Json.obj [("a", Json.num 1), ("b", Json.num 2)]) ∧
    parseJson "\x7b\"a\": 1,/* line1\nline2 */ \"b\": 2\x7d" =
      some (Json.obj [("a", Json.num 1), ("b", Json.num 2)]) ∧
    stripComments "\x7b\"a\": \"x//y\"\x7d".toList = "\x7b\"a\": \"x".toList ∧
    parseJson "\x7b\"a\": \"x//y\"\x7d" = none := by
  refine ⟨rfl, rfl, by decide, rfl⟩

end CloudBioLinux
